/-
Verification of the Storarc vector-cache / RAG core against its
natural-language specification.

The development shallow-embeds the TypeScript sources:
  * src/src/utils/vector-serialization.ts  (serializeVectors, deserializeVectors,
    chunkVectors, mergeVectorChunks)
  * src/src/services/vector-store.ts       (loadFromDisk)
  * src/unnamed/part_000  (RAGService.query, RAGService.chunkDocument)
  * src/unnamed/part_005 and
    src/client/src/app/api/documents/delete/route.ts.bak  (staleness check)

JavaScript runtime values are modelled by a `Json` tree; `JSON.parse` /
`JSON.stringify` (part of the JS runtime, an external collaborator) are
modelled as an inverse pair, i.e. the embedding works at the tree level and
a payload that is not valid JSON is represented by `none`.  Strings are
modelled by `String`, document text by `List Char`, JS numbers by `ℚ`.
Asynchronous code is embedded by explicit data flow: `Promise.all` over a
mapped array preserves the array order, so it is embedded as `List.map` /
`List.filterMap`; a fallible external call is a function into `Option`.
-/
import Mathlib

namespace Storarc

/-! ## JSON values (model of JS runtime values after JSON.parse) -/

/-- A JSON tree.  Objects are association lists; values produced by
`JSON.parse` never contain duplicate keys, and all objects built in this
development have distinct keys. -/
inductive Json where
  | null : Json
  | bool (b : Bool) : Json
  | num (q : ℚ) : Json
  | str (s : String) : Json
  | arr (elems : List Json) : Json
  | obj (fields : List (String × Json)) : Json

/-- JS property access `o.k` on a parsed JSON value: the field of an object,
`none` (undefined) otherwise. -/
def getField : Json → String → Option Json
  | .obj fields, k => lookupField fields k
  | _, _ => none
where
  lookupField : List (String × Json) → String → Option Json
    | [], _ => none
    | (k', v) :: rest, k => if k' = k then some v else lookupField rest k

/-- JS truthiness of a JSON value (`!x` in the source negates this). -/
def truthy : Json → Bool
  | .null => false
  | .bool b => b
  | .num q => q != 0
  | .str s => s != ""
  | .arr _ => true
  | .obj _ => true

/-- Truthiness of a possibly-undefined value (`undefined` is falsy). -/
def truthyOpt : Option Json → Bool
  | none => false
  | some v => truthy v

/-- Model of `Array.isArray` on a possibly-undefined value. -/
def isArrayOpt : Option Json → Bool
  | some (.arr _) => true
  | _ => false

/-! ## vector-serialization.ts -/

/-- Record `SerializedVector`: { content, embedding, metadata } (vector-serialization.ts). -/
structure SerializedVector where
  content : String
  embedding : List ℚ
  metadata : List (String × Json)

/-- A `SerializedVector` as the JSON value it is stringified to. -/
def svToJson (v : SerializedVector) : Json :=
  .obj [("content", .str v.content),
        ("embedding", .arr (v.embedding.map .num)),
        ("metadata", .obj v.metadata)]

/-- Read a `SerializedVector` back off a JSON value (how a consumer of the
deserialized store accesses the fields). -/
def svFromJson (j : Json) : Option SerializedVector :=
  match getField j "content", getField j "embedding", getField j "metadata" with
  | some (.str c), some (.arr es), some (.obj m) =>
      (numsOf es).map (fun emb => ⟨c, emb, m⟩)
  | _, _, _ => none
where
  numsOf : List Json → Option (List ℚ)
    | [] => some []
    | .num q :: rest => (numsOf rest).map (fun qs => q :: qs)
    | _ :: _ => none

/-- Function `serializeVectors(vectors, metadata)` (vector-serialization.ts lines 23-36):
builds `{version: '1.0', embeddingModel, dimensions, vectors, createdAt}` and
stringifies it.  Embedded as the JSON tree that the produced string parses
back to; `createdAt` (wall clock) is an explicit parameter. -/
def serializeVectors (vectors : List SerializedVector)
    (embeddingModel : String) (dimensions : ℚ) (createdAt : String) : Json :=
  .obj [("version", .str "1.0"),
        ("embeddingModel", .str embeddingModel),
        ("dimensions", .num dimensions),
        ("vectors", .arr (vectors.map svToJson)),
        ("createdAt", .str createdAt)]

/-- Function `deserializeVectors(data)` (vector-serialization.ts lines 41-50):
`JSON.parse` then the structural check
`if (!parsed.version || !parsed.vectors || !Array.isArray(parsed.vectors)) throw`.
Input `none` models a payload on which `JSON.parse` throws; the returned
value is the parsed tree itself (the TS `as` cast converts nothing). -/
def deserializeVectors : Option Json → Except String Json
  | none => .error "JSON parse failure"
  | some parsed =>
      if !truthyOpt (getField parsed "version")
          || !truthyOpt (getField parsed "vectors")
          || !isArrayOpt (getField parsed "vectors") then
        .error "Invalid serialized vector format"
      else
        .ok parsed

/-- The structural-shape condition under which `deserializeVectors` rejects
a parsed payload: the `version` field is absent or falsy, the `vectors`
field is absent or falsy, or `vectors` is not an array. -/
def corruptShape (parsed : Json) : Prop :=
  truthyOpt (getField parsed "version") = false
    ∨ truthyOpt (getField parsed "vectors") = false
    ∨ isArrayOpt (getField parsed "vectors") = false

/-- Method `VectorStoreService.loadFromDisk` (vector-store.ts lines 118-126):
`JSON.parse` the file, then `this.store.memoryVectors = data.memoryVectors || []`.
Input `none` models an unreadable/unparsable file (the method throws);
otherwise it never throws and the value assigned to `memoryVectors` is
returned. -/
def loadFromDisk : Option Json → Except String Json
  | none => .error "read or parse failure"
  | some data =>
      .ok (match getField data "memoryVectors" with
           | some v => if truthy v then v else .arr []
           | none => .arr [])

/-! ### JSON.stringify model (used only for byte sizes in chunkVectors) -/

/-- Decimal rendering of a rational, as a model of JS number formatting.
The exact digits are irrelevant to every property proved here (only the
existence of a size for each vector matters). -/
def numRender (q : ℚ) : String := toString q

mutual
/-- Model of `JSON.stringify` on a JSON tree (string escaping elided; only
the byte length of the output is ever used, and no proved property depends
on the exact bytes). -/
def stringify : Json → String
  | .null => "null"
  | .bool b => if b then "true" else "false"
  | .num q => numRender q
  | .str s => "\x22" ++ s ++ "\x22"
  | .arr elems => "[" ++ stringifyList elems ++ "]"
  | .obj fields => "\x7b" ++ stringifyFields fields ++ "\x7d"

def stringifyList : List Json → String
  | [] => ""
  | [x] => stringify x
  | x :: xs => stringify x ++ "," ++ stringifyList xs

def stringifyFields : List (String × Json) → String
  | [] => ""
  | [(k, v)] => "\x22" ++ k ++ "\x22:" ++ stringify v
  | (k, v) :: xs => "\x22" ++ k ++ "\x22:" ++ stringify v ++ "," ++ stringifyFields xs
end

/-- Size `Buffer.from(JSON.stringify(vector), 'utf-8').length` (vector-serialization.ts
line 105): the UTF-8 byte size of the stringified vector. -/
def vectorSize (v : SerializedVector) : Nat :=
  (stringify (svToJson v)).utf8ByteSize

/-- Loop body of `chunkVectors` (vector-serialization.ts lines 104-115):
walks the vectors, flushing `currentChunk` whenever adding the next vector
would exceed `maxChunkSize` and the current chunk is non-empty. -/
def chunkVectorsGo (maxChunkSize : Nat) :
    List SerializedVector → List SerializedVector → Nat →
    List (List SerializedVector)
  | [], currentChunk, _ =>
      -- final `if (currentChunk.length > 0) chunks.push(currentChunk)`
      if currentChunk.length > 0 then [currentChunk] else []
  | v :: rest, currentChunk, currentSize =>
      if currentSize + vectorSize v > maxChunkSize ∧ currentChunk.length > 0 then
        currentChunk :: chunkVectorsGo maxChunkSize rest [v] (vectorSize v)
      else
        chunkVectorsGo maxChunkSize rest (currentChunk ++ [v])
          (currentSize + vectorSize v)

/-- Function `chunkVectors(vectors, maxChunkSize)` (vector-serialization.ts lines 96-122). -/
def chunkVectors (vectors : List SerializedVector)
    (maxChunkSize : Nat) : List (List SerializedVector) :=
  chunkVectorsGo maxChunkSize vectors [] 0

/-- Function `mergeVectorChunks(chunks)` (vector-serialization.ts lines 127-129):
`chunks.flat()`. -/
def mergeVectorChunks (chunks : List (List SerializedVector)) :
    List SerializedVector :=
  chunks.flatten

/-! ## RAGService.chunkDocument (src/unnamed/part_000 lines 202-216)

Document text is modelled as `List Char`; `content.slice(i, i + chunkSize)`
is `(content.drop i).take chunkSize` and `String.prototype.trim` strips
whitespace characters from both ends. -/

/-- Whitespace as tested by `trim` (the common JS whitespace characters;
the exact set does not affect any proved property). -/
def jsWhitespace (c : Char) : Bool :=
  c = ' ' || c = '\t' || c = '\n' || c = '\r' || c = '\x0c' || c = '\x0b'

/-- Model of `String.prototype.trim`: drop whitespace from both ends. -/
def jsTrim (l : List Char) : List Char :=
  ((l.dropWhile jsWhitespace).reverse.dropWhile jsWhitespace).reverse

/-- Window `content.slice(i, i + size)`. -/
def window (content : List Char) (i size : Nat) : List Char :=
  (content.drop i).take size

/-- The loop of `chunkDocument`:
`for (let i = 0; i < content.length; i += (chunkSize - chunkOverlap))`
pushing `chunk.trim()` when it is non-empty.  The guard `overlap < size`
records the precondition under which the JS loop terminates (step
`size - overlap` positive); on inputs violating it the JS loop never ends. -/
def chunkLoop (content : List Char) (size overlap i : Nat) :
    List (List Char) :=
  if h : i < content.length ∧ overlap < size then
    let c := jsTrim (window content i size)
    if c.length > 0 then
      c :: chunkLoop content size overlap (i + (size - overlap))
    else
      chunkLoop content size overlap (i + (size - overlap))
  else
    []
termination_by content.length - i
decreasing_by
  all_goals
    exact Nat.sub_lt_sub_left h.1 (Nat.lt_add_of_pos_right (Nat.sub_pos_of_lt h.2))

/-- Method `RAGService.chunkDocument` (part_000 lines 202-216):
`return chunks.length > 0 ? chunks : [content]`. -/
def chunkDocument (content : List Char) (size overlap : Nat) :
    List (List Char) :=
  let chunks := chunkLoop content size overlap 0
  if chunks.length > 0 then chunks else [content]

/-- The window start positions `0, step, 2·step, …` strictly below `len`
(spec §4.3: "windows advance by `size - overlap` characters"). -/
def starts (len step i : Nat) : List Nat :=
  if h : i < len ∧ 0 < step then i :: starts len step (i + step) else []
termination_by len - i
decreasing_by exact Nat.sub_lt_sub_left h.1 (Nat.lt_add_of_pos_right h.2)

/-- Restatement of the chunker following the spec's words (§4.3), to be
compared with `chunkDocument`: trim the window at every start position,
drop the windows that trim to empty, and fall back to `[content]` when
everything was dropped. -/
def chunkSpec (content : List Char) (size overlap : Nat) :
    List (List Char) :=
  let raw :=
    ((starts content.length (size - overlap) 0).map
        (fun i => jsTrim (window content i size))).filter
      (fun c => c.length > 0)
  if raw.length > 0 then raw else [content]

/-- Spec §8 P7's "concatenation-with-overlap-removed": the first chunk
followed by every later chunk with its first `overlap` characters removed. -/
def reconstructOverlap (chunks : List (List Char)) (overlap : Nat) :
    List Char :=
  match chunks with
  | [] => []
  | c :: cs => c ++ (cs.map (fun d => d.drop overlap)).flatten

/-! ## RAGService.query (src/unnamed/part_000 lines 25-136)

The external collaborators are parameters: the vector-index search result
list (already computed by `similaritySearch`), the Walrus blob fetch
(`getBlobAsString`, `none` models a fetch that throws), the LLM generation
step, and the elapsed wall-clock time.  `Promise.all` over a mapped array
resolves to the results in array order (never completion order), so the
fetch stage is `List.map` and the subsequent `filter` of failed fetches is
`List.filterMap`.  The function is total: a per-item fetch failure is
caught inside the mapped closure (`catch` → `null`) and can never fail the
whole query. -/

/-- The metadata fields of a matched document that `query` reads. -/
structure DocMeta where
  blobId : String
  /-- `metadata.filename` may be absent (`undefined`): `none`. -/
  filename : Option String

/-- One element of the `similaritySearch` result list. -/
structure SearchResult where
  document : DocMeta
  score : ℚ

/-- One element of `RAGResult.sources`. -/
structure RAGSource where
  blobId : String
  filename : String
  content : String
  score : ℚ

/-- Record `RAGResult.metadata`. -/
structure RAGMetadata where
  processingTime : Nat
  documentsRetrieved : Nat

/-- Record `RAGResult`. -/
structure RAGResult where
  answer : String
  sources : List RAGSource
  metadata : RAGMetadata

/-- Fixed answer of the empty-search branch (part_000 line 42). -/
def noRelevantDocsAnswer : String :=
  "I could not find any relevant documents to answer your question."

/-- Fixed answer of the all-fetches-failed branch (part_000 line 83). -/
def storageFailAnswer : String :=
  "I found relevant documents but could not retrieve them from storage."

/-- Fallback `document.metadata.filename || 'unknown'` (part_000 line 57): JS `||`
falls through on `undefined` and on the empty string. -/
def filenameOrUnknown : Option String → String
  | none => "unknown"
  | some s => if s = "" then "unknown" else s

/-- The per-entry fetch closure (part_000 lines 55-75): fetch the blob,
build a source on success, `null` on failure. -/
def fetchSource (fetch : String → Option String) (r : SearchResult) :
    Option RAGSource :=
  (fetch r.document.blobId).map
    (fun content =>
      ⟨r.document.blobId, filenameOrUnknown r.document.filename,
        content, r.score⟩)

/-- The labeled context block (part_000 lines 95-99):
`Document ${index + 1} (${filename}):\n${content}\n` joined by `\n---\n\n`. -/
def buildContext (sources : List RAGSource) : String :=
  String.intercalate "\n---\n\n"
    (sources.enum.map
      (fun p =>
        "Document " ++ toString (p.1 + 1) ++ " (" ++ p.2.filename ++ "):\n"
          ++ p.2.content ++ "\n"))

/-- Method `RAGService.query` (part_000 lines 25-136). -/
def ragQuery (searchResults : List SearchResult)
    (fetch : String → Option String)
    (generate : String → String → String)
    (question : String) (elapsed : Nat) : RAGResult :=
  if searchResults.length = 0 then
    ⟨noRelevantDocsAnswer, [], ⟨elapsed, 0⟩⟩
  else
    let validSources := searchResults.filterMap (fetchSource fetch)
    if validSources.length = 0 then
      ⟨storageFailAnswer, [], ⟨elapsed, 0⟩⟩
    else
      ⟨generate (buildContext validSources) question, validSources,
        ⟨elapsed, validSources.length⟩⟩

/-! ## Staleness check (src/unnamed/part_005 line 64,
src/client/src/app/api/documents/delete/route.ts.bak line 96)

Both sites compute `registryStats.version > localStats.version`. -/

/-- The staleness comparison. -/
def isStale (registryVersion localVersion : Nat) : Bool :=
  registryVersion > localVersion

/-! ## Vector Index `add` with dimension check (spec §4.1)

Modelled from the spec: the dimension-checked `add` of the Vector Index is
implemented by the client-side vector store
(`client/src/services/vector-store.ts`), which is not present under `src/`
— only its callers are (the CLI, the sync/ingest scripts and the status
route).  Faithful to the spec's words: "`add(entries)`: appends; fails with
`DimensionMismatch` if any entry's embedding length ≠ index dimension
(first insert fixes the dimension)". -/

/-- Typed errors of the Vector Index boundary (spec §7). -/
inductive VectorIndexError where
  | dimensionMismatch : VectorIndexError
deriving DecidableEq

/-- A Vector Index entry (spec §3). -/
structure VectorEntry where
  text : String
  embedding : List ℚ
  metadata : List (String × Json)

/-- The Vector Index: the fixed dimension (`none` before the first insert)
and the retained entries. -/
structure VectorIndex where
  dim : Option Nat
  entries : List VectorEntry

/-- Modelled from the spec: `add(entries)` of §4.1 (implementation missing
from src/, see above).  Appends; rejects with `dimensionMismatch` if any
entry's embedding length differs from the index dimension; the first insert
into a fresh index fixes the dimension. -/
def VectorIndex.add (idx : VectorIndex) (new : List VectorEntry) :
    Except VectorIndexError VectorIndex :=
  match idx.dim.orElse (fun _ => new.head?.map (fun e => e.embedding.length)) with
  | none => .ok idx
  | some d =>
      if new.all (fun e => e.embedding.length == d) then
        .ok ⟨some d, idx.entries ++ new⟩
      else
        .error .dimensionMismatch

/-- The state kept by a caller of `add`: the new index on success, the old
one on rejection. -/
def VectorIndex.addOrKeep (idx : VectorIndex) (new : List VectorEntry) :
    VectorIndex :=
  match idx.add new with
  | .ok idx' => idx'
  | .error _ => idx

/-- Spec §8 P2's dimension invariant: every retained entry's embedding
length equals the index's fixed dimension. -/
def VectorIndex.wf (idx : VectorIndex) : Prop :=
  ∀ e ∈ idx.entries, ∀ d, idx.dim = some d → e.embedding.length = d

/-! # Theorems -/

/-! ## C1: empty search result -/

/-- C1: when the vector-index search returns no entries, `query` returns
the fixed "could not find any relevant documents" answer, an empty source
list, and `documentsRetrieved = 0`. -/
theorem c1_empty_search_fixed_result (searchResults : List SearchResult)
    (fetch : String → Option String) (generate : String → String → String)
    (question : String) (elapsed : Nat) (h : searchResults = []) :
    ragQuery searchResults fetch generate question elapsed =
      ⟨noRelevantDocsAnswer, [], ⟨elapsed, 0⟩⟩ := by
  subst h
  rfl

/-- Witness for C1 at a concrete input. -/
theorem c1_empty_search_fixed_result_witness :
    ragQuery [] (fun _ => none) (fun _ _ => "generated") "anything" 5 =
      ⟨noRelevantDocsAnswer, [], ⟨5, 0⟩⟩ :=
  c1_empty_search_fixed_result [] (fun _ => none) (fun _ _ => "generated")
    "anything" 5 rfl

/-! ## C2: per-item fetch failure tolerance -/

/-- C2: with a non-empty search result, the returned source list is exactly
the per-entry fetches that succeeded (failed fetches are dropped, the query
itself never fails — `ragQuery` is total), and when every fetch fails the
result is the fixed "could not retrieve from storage" answer with empty
sources. -/
theorem c2_fetch_failures_dropped (searchResults : List SearchResult)
    (fetch : String → Option String) (generate : String → String → String)
    (question : String) (elapsed : Nat) (hne : searchResults ≠ []) :
    (ragQuery searchResults fetch generate question elapsed).sources =
        searchResults.filterMap (fetchSource fetch)
      ∧ ((∀ r ∈ searchResults, fetch r.document.blobId = none) →
          ragQuery searchResults fetch generate question elapsed =
            ⟨storageFailAnswer, [], ⟨elapsed, 0⟩⟩) := by
  have hlen : ¬ searchResults.length = 0 := by
    simpa [List.length_eq_zero] using hne
  constructor
  · by_cases hv :
        (searchResults.filterMap (fetchSource fetch)).length = 0
    · simp [ragQuery, hlen, hv, List.length_eq_zero.mp hv]
    · simp [ragQuery, hlen, hv]
  · intro hall
    have hnil : searchResults.filterMap (fetchSource fetch) = [] := by
      rw [List.filterMap_eq_nil_iff]
      intro r hr
      simp [fetchSource, hall r hr]
    simp [ragQuery, hlen, hnil]

/-- Witness for C2 at a concrete input. -/
theorem c2_fetch_failures_dropped_witness :
    (ragQuery [⟨⟨"blob1", some "doc.txt"⟩, (3 : ℚ)⟩]
          (fun _ => none) (fun _ _ => "generated") "q" 7).sources =
        [(⟨⟨"blob1", some "doc.txt"⟩, (3 : ℚ)⟩ : SearchResult)].filterMap
          (fetchSource (fun _ => none))
      ∧ ((∀ r ∈ [(⟨⟨"blob1", some "doc.txt"⟩, (3 : ℚ)⟩ : SearchResult)],
            (fun _ => (none : Option String)) r.document.blobId = none) →
          ragQuery [⟨⟨"blob1", some "doc.txt"⟩, (3 : ℚ)⟩]
              (fun _ => none) (fun _ _ => "generated") "q" 7 =
            ⟨storageFailAnswer, [], ⟨7, 0⟩⟩) :=
  c2_fetch_failures_dropped [⟨⟨"blob1", some "doc.txt"⟩, (3 : ℚ)⟩]
    (fun _ => none) (fun _ _ => "generated") "q" 7
    (List.cons_ne_nil _ _)

/-! ## C9: staleness comparison -/

/-- C9: the staleness check reports stale exactly when the registry version
exceeds the local version; in particular equal versions are not stale and a
local version above the registry's is not stale. -/
theorem c9_stale_iff_registry_ahead
    (registryVersion localVersion extra : Nat) :
    (isStale registryVersion localVersion = true ↔
        registryVersion > localVersion)
      ∧ isStale localVersion localVersion = false
      ∧ isStale registryVersion (registryVersion + extra) = false := by
  refine ⟨?_, ?_, ?_⟩ <;> simp [isStale]

/-! ## C6: dimension-checked add (spec-modelled) -/

/-- C6: adding any batch containing an entry whose embedding length differs
from the index's fixed dimension is rejected with `dimensionMismatch`, a
rejected add leaves the index unchanged, and a successful add preserves the
invariant that every retained entry's embedding length equals the index
dimension. -/
theorem c6_dimension_mismatch_rejected (idx : VectorIndex)
    (new : List VectorEntry) (d : Nat) (hdim : idx.dim = some d)
    (hbad : ∃ e ∈ new, e.embedding.length ≠ d) :
    idx.add new = .error .dimensionMismatch
      ∧ idx.addOrKeep new = idx
      ∧ (∀ es idx', idx.wf → idx.add es = .ok idx' → idx'.wf) := by
  have herr : idx.add new = .error .dimensionMismatch := by
    obtain ⟨e, he, hne⟩ := hbad
    have hall : new.all (fun e => e.embedding.length == d) = false := by
      rw [List.all_eq_false]
      exact ⟨e, he, by simpa using hne⟩
    simp [VectorIndex.add, hdim, Option.orElse, hall]
  refine ⟨herr, by simp [VectorIndex.addOrKeep, herr], ?_⟩
  intro es idx' hwf hok
  rw [VectorIndex.add] at hok
  rw [hdim] at hok
  simp only [Option.orElse, Option.some_orElse] at hok
  by_cases hall : es.all (fun e => e.embedding.length == d) = true
  · rw [if_pos hall] at hok
    cases hok
    intro e he d' hd'
    have hdd : d' = d := by
      simpa using hd'.symm
    rw [hdd]
    rcases List.mem_append.mp he with hold | hnew
    · exact hwf e hold d hdim
    · simpa using List.all_eq_true.mp hall e hnew
  · rw [if_neg hall] at hok
    cases hok

/-- Witness for C6 at a concrete input: a 2-dimensional index rejects a
1-dimensional entry. -/
theorem c6_dimension_mismatch_rejected_witness :
    VectorIndex.add ⟨some 2, []⟩ [⟨"t", [(1 : ℚ)], []⟩] =
        .error .dimensionMismatch
      ∧ VectorIndex.addOrKeep ⟨some 2, []⟩ [⟨"t", [(1 : ℚ)], []⟩] =
          (⟨some 2, []⟩ : VectorIndex)
      ∧ (∀ es idx', VectorIndex.wf ⟨some 2, []⟩ →
          VectorIndex.add ⟨some 2, []⟩ es = .ok idx' → idx'.wf) :=
  c6_dimension_mismatch_rejected ⟨some 2, []⟩ [⟨"t", [(1 : ℚ)], []⟩] 2 rfl
    ⟨⟨"t", [(1 : ℚ)], []⟩, List.mem_singleton.mpr rfl, by simp⟩

/-! ## C7: serialization round-trip -/

/-- Reading a serialized vector back off its JSON form recovers it exactly. -/
theorem svFromJson_svToJson (v : SerializedVector) :
    svFromJson (svToJson v) = some v := by
  have hemb : svFromJson.numsOf (v.embedding.map Json.num) =
      some v.embedding := by
    induction v.embedding with
    | nil => rfl
    | cons q qs ih => simp [svFromJson.numsOf, ih]
  simp [svFromJson, svToJson, getField, getField.lookupField, hemb]

/-- C7: deserializing the result of serializing any vector sequence and
metadata succeeds, and the resulting store's `vectors` decode entry-for-entry
and order-preserved to the input sequence while `embeddingModel` and
`dimensions` equal the given metadata. -/
theorem c7_serialize_roundtrip (vectors : List SerializedVector)
    (embeddingModel : String) (dimensions : ℚ) (createdAt : String) :
    deserializeVectors
        (some (serializeVectors vectors embeddingModel dimensions createdAt))
        = .ok (serializeVectors vectors embeddingModel dimensions createdAt)
      ∧ getField (serializeVectors vectors embeddingModel dimensions createdAt)
          "vectors" = some (.arr (vectors.map svToJson))
      ∧ getField (serializeVectors vectors embeddingModel dimensions createdAt)
          "embeddingModel" = some (.str embeddingModel)
      ∧ getField (serializeVectors vectors embeddingModel dimensions createdAt)
          "dimensions" = some (.num dimensions)
      ∧ (vectors.map svToJson).map svFromJson = vectors.map some := by
  refine ⟨?_, rfl, rfl, rfl, ?_⟩
  · rfl
  · rw [List.map_map]
    exact List.map_congr_left (fun v _ => svFromJson_svToJson v)

/-! ## C10: chunkVectors / mergeVectorChunks round-trip -/

/-- Flattening the chunks produced by the loop yields the pending chunk
followed by the unprocessed vectors. -/
theorem flatten_chunkVectorsGo (maxChunkSize : Nat) :
    ∀ (rest currentChunk : List SerializedVector) (currentSize : Nat),
      (chunkVectorsGo maxChunkSize rest currentChunk currentSize).flatten =
        currentChunk ++ rest := by
  intro rest
  induction rest with
  | nil =>
      intro currentChunk currentSize
      by_cases h : currentChunk.length > 0
      · simp [chunkVectorsGo, h]
      · simp [chunkVectorsGo, h,
          List.length_eq_zero.mp (Nat.eq_zero_of_not_pos h)]
  | cons v rest ih =>
      intro currentChunk currentSize
      by_cases h : currentSize + vectorSize v > maxChunkSize ∧
          currentChunk.length > 0
      · simp [chunkVectorsGo, h, ih]
      · simp [chunkVectorsGo, h, ih]

/-- Every chunk pushed by the loop is non-empty. -/
theorem chunkVectorsGo_ne_nil (maxChunkSize : Nat) :
    ∀ (rest currentChunk : List SerializedVector) (currentSize : Nat)
      (c : List SerializedVector),
      c ∈ chunkVectorsGo maxChunkSize rest currentChunk currentSize →
        c ≠ [] := by
  intro rest
  induction rest with
  | nil =>
      intro currentChunk currentSize c hc
      by_cases h : currentChunk.length > 0
      · rw [chunkVectorsGo, if_pos h] at hc
        rcases List.mem_singleton.mp hc with rfl
        exact List.ne_nil_of_length_pos h
      · rw [chunkVectorsGo, if_neg h] at hc
        cases hc
  | cons v rest ih =>
      intro currentChunk currentSize c hc
      by_cases h : currentSize + vectorSize v > maxChunkSize ∧
          currentChunk.length > 0
      · rw [chunkVectorsGo, if_pos h] at hc
        rcases List.mem_cons.mp hc with rfl | hmem
        · exact List.ne_nil_of_length_pos h.2
        · exact ih _ _ _ hmem
      · rw [chunkVectorsGo, if_neg h] at hc
        exact ih _ _ _ hc

/-- C10: merging the chunks produced by `chunkVectors` recovers the input
sequence element-for-element in order, and every produced chunk is
non-empty. -/
theorem c10_chunk_merge_roundtrip (vectors : List SerializedVector)
    (maxChunkSize : Nat) (hpos : 0 < maxChunkSize) :
    mergeVectorChunks (chunkVectors vectors maxChunkSize) = vectors
      ∧ ∀ c ∈ chunkVectors vectors maxChunkSize, c ≠ [] := by
  refine ⟨?_, fun c hc => chunkVectorsGo_ne_nil maxChunkSize _ _ _ c hc⟩
  simpa [mergeVectorChunks, chunkVectors] using
    flatten_chunkVectorsGo maxChunkSize vectors [] 0

/-- Witness for C10 at a concrete input. -/
theorem c10_chunk_merge_roundtrip_witness :
    mergeVectorChunks
        (chunkVectors [⟨"a", [(1 : ℚ)], []⟩, ⟨"b", [(2 : ℚ)], []⟩] 1000000) =
        [⟨"a", [(1 : ℚ)], []⟩, ⟨"b", [(2 : ℚ)], []⟩]
      ∧ ∀ c ∈ chunkVectors [⟨"a", [(1 : ℚ)], []⟩, ⟨"b", [(2 : ℚ)], []⟩]
          1000000, c ≠ [] :=
  c10_chunk_merge_roundtrip [⟨"a", [(1 : ℚ)], []⟩, ⟨"b", [(2 : ℚ)], []⟩]
    1000000 (by decide)

/-! ## C8: corrupt-snapshot detection (corrected) -/

/-- Counterexample to C8 as stated.  The payload
`{"version": 0, "vectors": []}` parses, its `version` and `vectors` fields
are both present and `vectors` is an array — by the claim's listed
conditions deserialization should succeed — yet `deserializeVectors`
rejects it (the check tests JS truthiness, and `0` is falsy).  Moreover the
local-disk loader silently accepts the structurally malformed payload `{}`
as a valid empty index instead of failing. -/
theorem c8_counterexample_falsy_version_and_silent_disk_default :
    deserializeVectors
        (some (.obj [("version", Json.num 0), ("vectors", Json.arr [])])) =
        .error "Invalid serialized vector format"
      ∧ loadFromDisk (some (.obj [])) = .ok (.arr []) := by
  constructor
  · rfl
  · rfl

/-- C8 as amended: `deserializeVectors` fails exactly when the payload
fails to parse or fails the truthiness-based structural check (`version`
absent or falsy, `vectors` absent or falsy, or `vectors` not an array), and
such payloads are never accepted; the local-disk cache loader
`loadFromDisk`, by contrast, silently substitutes the empty vector list
whenever its `memoryVectors` field is absent or falsy. -/
theorem c8_deserialize_error_iff_corrupt_shape (payload : Option Json)
    (j : Json) (hmv : truthyOpt (getField j "memoryVectors") = false) :
    ((∃ msg, deserializeVectors payload = .error msg) ↔
        payload = none ∨ ∃ parsed, payload = some parsed ∧ corruptShape parsed)
      ∧ loadFromDisk (some j) = .ok (.arr []) := by
  constructor
  · cases payload with
    | none => simp [deserializeVectors]
    | some parsed =>
        by_cases h : corruptShape parsed
        · have hcond : (!truthyOpt (getField parsed "version")
              || !truthyOpt (getField parsed "vectors")
              || !isArrayOpt (getField parsed "vectors")) = true := by
            rcases h with h | h | h <;> simp [h]
          simp only [deserializeVectors, hcond, if_true]
          exact ⟨fun _ => Or.inr ⟨parsed, rfl, h⟩,
            fun _ => ⟨"Invalid serialized vector format", rfl⟩⟩
        · have hcond : (!truthyOpt (getField parsed "version")
              || !truthyOpt (getField parsed "vectors")
              || !isArrayOpt (getField parsed "vectors")) = false := by
            rw [corruptShape] at h
            push_neg at h
            simp [h.1, h.2.1, h.2.2]
          simp [deserializeVectors, hcond, h]
  · rw [loadFromDisk]
    cases hg : getField j "memoryVectors" with
    | none => rfl
    | some v =>
        rw [hg] at hmv
        rw [truthyOpt] at hmv
        simp [hg, hmv]

/-- Witness for the amended C8 at concrete inputs: the well-shaped payload
`{"version": "1.0", "vectors": []}` would not be rejected, and the disk
loader accepts `{"other": 1}` as an empty index. -/
theorem c8_deserialize_error_iff_corrupt_shape_witness :
    ((∃ msg, deserializeVectors
          (some (.obj [("version", Json.str "1.0"), ("vectors", Json.arr [])]))
          = .error msg) ↔
        some (Json.obj [("version", Json.str "1.0"), ("vectors", Json.arr [])])
            = none
          ∨ ∃ parsed,
              some (Json.obj
                  [("version", Json.str "1.0"), ("vectors", Json.arr [])]) =
                some parsed ∧ corruptShape parsed)
      ∧ loadFromDisk (some (.obj [("other", Json.num 1)])) = .ok (.arr []) :=
  c8_deserialize_error_iff_corrupt_shape
    (some (.obj [("version", Json.str "1.0"), ("vectors", Json.arr [])]))
    (.obj [("other", Json.num 1)]) rfl

/-! ## C3: source ordering -/

/-- A successful per-entry fetch carries the entry's retrieval score
through unchanged. -/
theorem fetchSource_score (fetch : String → Option String)
    (r : SearchResult) (s : RAGSource) (h : fetchSource fetch r = some s) :
    s.score = r.score := by
  rw [fetchSource] at h
  cases hf : fetch r.document.blobId with
  | none => rw [hf] at h; cases h
  | some content =>
      rw [hf] at h
      cases h
      rfl

/-- Dropping failed fetches preserves descending score order, and the
retained scores form a subsequence of the retrieval scores. -/
theorem filterMap_fetchSource_sorted (fetch : String → Option String) :
    ∀ l : List SearchResult,
      l.Pairwise (fun a b => b.score ≤ a.score) →
        (l.filterMap (fetchSource fetch)).Pairwise
            (fun a b => b.score ≤ a.score)
          ∧ List.Sublist ((l.filterMap (fetchSource fetch)).map RAGSource.score)
              (l.map SearchResult.score) := by
  intro l
  induction l with
  | nil => intro _; exact ⟨List.Pairwise.nil, List.nil_sublist _⟩
  | cons r rest ih =>
      intro hsorted
      rcases List.pairwise_cons.mp hsorted with ⟨hr, hrest⟩
      rcases ih hrest with ⟨ihp, ihs⟩
      cases hf : fetchSource fetch r with
      | none =>
          rw [List.filterMap_cons_none hf] at *
          exact ⟨ihp, by simpa using ihs.trans (List.sublist_cons_self _ _)⟩
      | some s =>
          rw [List.filterMap_cons_some hf]
          constructor
          · refine List.pairwise_cons.mpr ⟨?_, ihp⟩
            intro b hb
            rcases List.mem_filterMap.mp hb with ⟨a, ha, hfa⟩
            rw [fetchSource_score fetch a b hfa,
              fetchSource_score fetch r s hf]
            exact hr a ha
          · simpa [fetchSource_score fetch r s hf] using
              List.Sublist.cons₂ r.score ihs

/-- C3: when the search results are in descending score order (the order
`similaritySearch` produces), the returned sources are in descending score
order too, and their scores are a subsequence of the retrieval scores — the
order is inherited from the search, not from fetch completion (the fetch
stage is order-preserving `Promise.all`). -/
theorem c3_sources_descending_score (searchResults : List SearchResult)
    (fetch : String → Option String) (generate : String → String → String)
    (question : String) (elapsed : Nat)
    (hsorted : searchResults.Pairwise (fun a b => b.score ≤ a.score)) :
    (ragQuery searchResults fetch generate question elapsed).sources.Pairwise
        (fun a b => b.score ≤ a.score)
      ∧ List.Sublist
          ((ragQuery searchResults fetch generate question
              elapsed).sources.map RAGSource.score)
          (searchResults.map SearchResult.score) := by
  rcases filterMap_fetchSource_sorted fetch searchResults hsorted with
    ⟨hp, hs⟩
  by_cases hlen : searchResults.length = 0
  · simp [ragQuery, hlen]
  · by_cases hv : (searchResults.filterMap (fetchSource fetch)).length = 0
    · simp [ragQuery, hlen, hv]
    · simpa [ragQuery, hlen, hv] using ⟨hp, hs⟩

/-- Witness for C3 at a concrete input: two results with scores 3 and 1,
the first fetch failing. -/
theorem c3_sources_descending_score_witness :
    (ragQuery [⟨⟨"b1", some "f1"⟩, (3 : ℚ)⟩, ⟨⟨"b2", some "f2"⟩, (1 : ℚ)⟩]
          (fun id => if id = "b2" then some "text2" else none)
          (fun _ _ => "generated") "q" 9).sources.Pairwise
        (fun a b => b.score ≤ a.score)
      ∧ List.Sublist
          ((ragQuery [⟨⟨"b1", some "f1"⟩, (3 : ℚ)⟩, ⟨⟨"b2", some "f2"⟩, (1 : ℚ)⟩]
              (fun id => if id = "b2" then some "text2" else none)
              (fun _ _ => "generated") "q" 9).sources.map RAGSource.score)
          ([(⟨⟨"b1", some "f1"⟩, (3 : ℚ)⟩ : SearchResult),
            ⟨⟨"b2", some "f2"⟩, (1 : ℚ)⟩].map SearchResult.score) :=
  c3_sources_descending_score
    [⟨⟨"b1", some "f1"⟩, (3 : ℚ)⟩, ⟨⟨"b2", some "f2"⟩, (1 : ℚ)⟩]
    (fun id => if id = "b2" then some "text2" else none)
    (fun _ _ => "generated") "q" 9
    (List.pairwise_cons.mpr
      ⟨fun b hb => by
        rcases List.mem_singleton.mp hb with rfl
        norm_num,
       List.pairwise_singleton _ _⟩)

/-! ## C4: chunker window structure -/

/-- Every start position produced by `starts` lies below `len`. -/
theorem mem_starts_lt (len step : Nat) (i j : Nat)
    (hj : j ∈ starts len step i) : j < len := by
  rw [starts] at hj
  by_cases h : i < len ∧ 0 < step
  · rw [dif_pos h] at hj
    rcases List.mem_cons.mp hj with rfl | hj'
    · exact h.1
    · exact mem_starts_lt len step (i + step) j hj'
  · rw [dif_neg h] at hj
    cases hj
termination_by len - i
decreasing_by exact Nat.sub_lt_sub_left h.1 (Nat.lt_add_of_pos_right h.2)

/-- The chunker loop equals, window for window, the trim-then-filter of the
windows taken at the start positions `0, step, 2·step, …`. -/
theorem chunkLoop_eq_spec (content : List Char) (size overlap : Nat)
    (h2 : overlap < size) (i : Nat) :
    chunkLoop content size overlap i =
      ((starts content.length (size - overlap) i).map
          (fun j => jsTrim (window content j size))).filter
        (fun c => c.length > 0) := by
  have hstep : 0 < size - overlap := Nat.sub_pos_of_lt h2
  rw [chunkLoop, starts]
  by_cases hi : i < content.length
  · rw [dif_pos ⟨hi, h2⟩, dif_pos ⟨hi, hstep⟩, List.map_cons,
      List.filter_cons,
      chunkLoop_eq_spec content size overlap h2 (i + (size - overlap))]
    by_cases hc : 0 < (jsTrim (window content i size)).length
    · simp [hc]
    · simp [hc]
  · rw [dif_neg (fun h => hi h.1), dif_neg (fun h => hi h.1)]
    rfl
termination_by content.length - i
decreasing_by exact Nat.sub_lt_sub_left hi (Nat.lt_add_of_pos_right hstep)

/-- C4: for `size > 0` and `0 ≤ overlap < size` the chunker is exactly the
spec's description — windows starting at positions that advance by
`size - overlap`, each whitespace-trimmed, empty trims dropped, with the
single-element fallback `[content]` when everything was dropped — and its
output is never empty. -/
theorem c4_chunker_windows (content : List Char) (size overlap : Nat)
    (h1 : 0 < size) (h2 : overlap < size) :
    chunkDocument content size overlap = chunkSpec content size overlap
      ∧ chunkDocument content size overlap ≠ [] := by
  constructor
  · rw [chunkDocument, chunkSpec, chunkLoop_eq_spec content size overlap h2 0]
  · rw [chunkDocument]
    by_cases h : (chunkLoop content size overlap 0).length > 0
    · simpa [h] using List.ne_nil_of_length_pos h
    · simp [h]

/-- Witness for C4 at a concrete input (`" abcd"`, size 3, overlap 1). -/
theorem c4_chunker_windows_witness :
    chunkDocument [' ', 'a', 'b', 'c', 'd'] 3 1 =
        chunkSpec [' ', 'a', 'b', 'c', 'd'] 3 1
      ∧ chunkDocument [' ', 'a', 'b', 'c', 'd'] 3 1 ≠ [] :=
  c4_chunker_windows [' ', 'a', 'b', 'c', 'd'] 3 1 (by decide) (by decide)

/-! ## C5: chunk determinism and reconstruction (corrected) -/

/-- Counterexample to C5 as stated.  On the text `" abcd"` with size 3 and
overlap 1 the produced chunks are `["ab", "bcd", "d"]` (each window is
whitespace-trimmed before being emitted), and concatenating them with each
later chunk's first `overlap` characters removed yields `"abcd"` — which is
not the original text, not a prefix of it, and not extended by it, so no
prefix-consistent view of `" abcd"` is reconstructed. -/
theorem c5_counterexample_trim_breaks_reconstruction :
    chunkDocument [' ', 'a', 'b', 'c', 'd'] 3 1 =
        [['a', 'b'], ['b', 'c', 'd'], ['d']]
      ∧ reconstructOverlap (chunkDocument [' ', 'a', 'b', 'c', 'd'] 3 1) 1 =
          ['a', 'b', 'c', 'd']
      ∧ reconstructOverlap (chunkDocument [' ', 'a', 'b', 'c', 'd'] 3 1) 1 ≠
          [' ', 'a', 'b', 'c', 'd']
      ∧ ¬ List.IsPrefix
          (reconstructOverlap (chunkDocument [' ', 'a', 'b', 'c', 'd'] 3 1) 1)
          [' ', 'a', 'b', 'c', 'd']
      ∧ ¬ List.IsPrefix [' ', 'a', 'b', 'c', 'd']
          (reconstructOverlap
            (chunkDocument [' ', 'a', 'b', 'c', 'd'] 3 1) 1) := by
  have hchunks : chunkDocument [' ', 'a', 'b', 'c', 'd'] 3 1 =
      [['a', 'b'], ['b', 'c', 'd'], ['d']] := by
    simp [chunkDocument, chunkLoop, window, jsTrim, jsWhitespace,
      List.dropWhile]
  refine ⟨hchunks, ?_, ?_, ?_, ?_⟩ <;> rw [hchunks] <;> decide

/-- Dropping the first `overlap` characters of every window after position
`i` and concatenating reconstructs the suffix of the text from `i` on. -/
theorem reconstruct_windows (content : List Char) (size overlap : Nat)
    (h2 : overlap < size) (i : Nat) (hi : i < content.length) :
    window content i size ++
        ((starts content.length (size - overlap)
              (i + (size - overlap))).map
            (fun j => (window content j size).drop overlap)).flatten =
      content.drop i := by
  have hstep : 0 < size - overlap := Nat.sub_pos_of_lt h2
  rw [starts]
  by_cases hnext : i + (size - overlap) < content.length
  · rw [dif_pos ⟨hnext, hstep⟩]
    simp only [List.map_cons, List.flatten_cons]
    have ih := reconstruct_windows content size overlap h2
      (i + (size - overlap)) hnext
    rw [window] at ih
    have hdd : content.drop (i + (size - overlap)) =
        (content.drop i).drop (size - overlap) := by
      rw [List.drop_drop]
    rw [hdd] at ih
    have hwin : (window content (i + (size - overlap)) size).drop overlap =
        ((content.drop i).drop size).take (size - overlap) := by
      rw [window, List.drop_take]
      congr 1
      rw [List.drop_drop, List.drop_drop]
      congr 1
      omega
    rw [hwin, window, ← List.append_assoc, ← List.take_add]
    calc
      (content.drop i).take (size + (size - overlap)) ++
            ((starts content.length (size - overlap)
                (i + (size - overlap) + (size - overlap))).map
              (fun j => (window content j size).drop overlap)).flatten
          = (content.drop i).take ((size - overlap) + size) ++
              ((starts content.length (size - overlap)
                  (i + (size - overlap) + (size - overlap))).map
                (fun j => (window content j size).drop overlap)).flatten := by
            rw [Nat.add_comm size (size - overlap)]
      _ = (content.drop i).take (size - overlap) ++
            (((content.drop i).drop (size - overlap)).take size ++
              ((starts content.length (size - overlap)
                  (i + (size - overlap) + (size - overlap))).map
                (fun j => (window content j size).drop overlap)).flatten) := by
            rw [List.take_add, List.append_assoc]
      _ = (content.drop i).take (size - overlap) ++
            (content.drop i).drop (size - overlap) := by
            rw [ih]
      _ = content.drop i := List.take_append_drop _ _
  · rw [dif_neg (fun h => hnext h.1), List.map_nil, List.flatten_nil,
      List.append_nil, window]
    have hlen : (content.drop i).length ≤ size := by
      rw [List.length_drop]
      omega
    exact List.take_of_length_le hlen
termination_by content.length - i
decreasing_by exact Nat.sub_lt_sub_left hi (Nat.lt_add_of_pos_right hstep)

/-- When no window is altered by trimming, the chunker loop emits exactly
the raw windows. -/
theorem chunkLoop_eq_windows (content : List Char) (size overlap : Nat)
    (h2 : overlap < size)
    (htrim : ∀ i ∈ starts content.length (size - overlap) 0,
        jsTrim (window content i size) = window content i size) :
    chunkLoop content size overlap 0 =
      (starts content.length (size - overlap) 0).map
        (fun j => window content j size) := by
  rw [chunkLoop_eq_spec content size overlap h2 0,
    List.map_congr_left (fun i hi => by rw [htrim i hi])]
  rw [List.filter_eq_self.mpr]
  intro c hc
  rcases List.mem_map.mp hc with ⟨j, hj, rfl⟩
  have hjlt := mem_starts_lt _ _ _ _ hj
  have h1 : 0 < size := lt_of_le_of_lt (Nat.zero_le overlap) h2
  simp only [window, decide_eq_true_eq, gt_iff_lt, List.length_take,
    List.length_drop]
  omega

/-- C5 as amended: chunking is deterministic (it is a pure function of the
text, size and overlap), and whenever no window is altered by
whitespace-trimming, concatenating the produced chunks with each later
chunk's first `overlap` characters removed reconstructs the original text
exactly.  (As stated the claim fails: trimming can remove characters, see
the counterexample.) -/
theorem c5_deterministic_and_reconstruction (content : List Char)
    (size overlap : Nat) (h1 : 0 < size) (h2 : overlap < size)
    (htrim : ∀ i ∈ starts content.length (size - overlap) 0,
        jsTrim (window content i size) = window content i size) :
    (∀ content' size' overlap', content' = content → size' = size →
        overlap' = overlap →
        chunkDocument content' size' overlap' =
          chunkDocument content size overlap)
      ∧ reconstructOverlap (chunkDocument content size overlap) overlap =
          content := by
  refine ⟨fun c' s' o' hc hs ho => by rw [hc, hs, ho], ?_⟩
  by_cases hnil : content.length = 0
  · have hc : content = [] := List.length_eq_zero.mp hnil
    subst hc
    have hloop : chunkLoop [] size overlap 0 = [] := by
      rw [chunkLoop, dif_neg]
      intro h
      exact absurd h.1 (by simp)
    rw [chunkDocument]
    simp only [hloop, List.length_nil, gt_iff_lt, Nat.lt_irrefl, if_false]
    rfl
  · have hpos : 0 < content.length := Nat.pos_of_ne_zero hnil
    have hstep : 0 < size - overlap := Nat.sub_pos_of_lt h2
    have hstarts : starts content.length (size - overlap) 0 =
        0 :: starts content.length (size - overlap) (0 + (size - overlap)) := by
      rw [starts, dif_pos ⟨hpos, hstep⟩]
    have hchunks : chunkDocument content size overlap =
        window content 0 size ::
          (starts content.length (size - overlap)
              (0 + (size - overlap))).map
            (fun j => window content j size) := by
      rw [chunkDocument]
      simp only [chunkLoop_eq_windows content size overlap h2 htrim,
        hstarts, List.map_cons, List.length_cons, gt_iff_lt,
        Nat.succ_pos, if_true]
    rw [hchunks, reconstructOverlap, List.map_map]
    have hrec := reconstruct_windows content size overlap h2 0 hpos
    simpa [Function.comp] using hrec

/-- Witness for the amended C5 at a concrete input (`"abcdef"`, size 3,
overlap 1: windows `"abc"`, `"cde"`, `"ef"`, none altered by trimming). -/
theorem c5_deterministic_and_reconstruction_witness :
    (∀ content' size' overlap',
        content' = ['a', 'b', 'c', 'd', 'e', 'f'] → size' = 3 →
        overlap' = 1 →
        chunkDocument content' size' overlap' =
          chunkDocument ['a', 'b', 'c', 'd', 'e', 'f'] 3 1)
      ∧ reconstructOverlap (chunkDocument ['a', 'b', 'c', 'd', 'e', 'f'] 3 1)
          1 = ['a', 'b', 'c', 'd', 'e', 'f'] :=
  c5_deterministic_and_reconstruction ['a', 'b', 'c', 'd', 'e', 'f'] 3 1
    (by decide) (by decide)
    (by
      have hs : starts (['a', 'b', 'c', 'd', 'e', 'f'] : List Char).length
          (3 - 1) 0 = [0, 2, 4] := by
        simp [starts]
      rw [hs]
      intro i hi
      fin_cases hi <;> decide)

end Storarc
